import Mathlib

set_option autoImplicit false
set_option maxHeartbeats 1000000
set_option maxRecDepth 8000

/-!
A verification development for the `ass` subtitle-format library
(`ass/document.py`).  Python strings are modelled as lists of characters
(`Str`), Python exceptions as an error type (`PyErr`) with fallible
operations returning `Except PyErr`, and Python's `timedelta` as an exact
count of microseconds (its internal normalized representation).  Each
definition mirrors one function or class of the source file; the theorems
at the end of the file settle the specification claims against these
definitions.
-/

deriving instance DecidableEq for Except

namespace Ass

/-- A Python `str`, modelled as its list of characters. -/
abbrev Str := List Char

/-- Embed a Lean string literal as a Python string. -/
def pyStr (s : String) : Str := s.data

/-- Python `str.isspace` on the ASCII whitespace characters recognized by
`str.strip()` (space, tab, newline, carriage return, vertical tab, form
feed).  Non-ASCII Unicode whitespace is not modelled; no input in this
development contains any. -/
def pyIsSpace (c : Char) : Bool :=
  c == ' ' || c == '\t' || c == '\n' || c == '\r' ||
    c == Char.ofNat 11 || c == Char.ofNat 12

/-- Python `str.lstrip()` with no argument. -/
def pyLstrip (s : Str) : Str := s.dropWhile pyIsSpace

/-- Python `str.rstrip()` with no argument. -/
def pyRstrip (s : Str) : Str := (s.reverse.dropWhile pyIsSpace).reverse

/-- Python `str.strip()` with no argument. -/
def pyStrip (s : Str) : Str := pyLstrip (pyRstrip s)

/-- Python `str.lower()` (per-character lowercasing). -/
def pyLower (s : Str) : Str := s.map Char.toLower

/-- Python `str.startswith(pre)`. -/
def pyStartsWith (s pre : Str) : Bool := pre.isPrefixOf s

/-- Python `str.endswith(suf)`. -/
def pyEndsWith (s suf : Str) : Bool := suf.isSuffixOf s

/-- Split off everything up to the first occurrence of `sep`:
`some (before, after)` when `sep` occurs, `none` otherwise. -/
def breakAt (sep : Char) : Str → Option (Str × Str)
  | [] => Option.none
  | c :: cs =>
    if c == sep then some ([], cs)
    else
      match breakAt sep cs with
      | Option.none => Option.none
      | some pr => some (c :: pr.1, pr.2)

/-- Scanning loop for `pySplitCh`: `acc` holds the current piece reversed;
a separator is consumed as long as the remaining split budget `m` is
non-zero (a negative budget therefore never runs out, as in Python). -/
def pySplitChAux (sep : Char) : Int → Str → Str → List Str
  | _, acc, [] => [acc.reverse]
  | m, acc, c :: cs =>
    if c == sep && m != 0 then acc.reverse :: pySplitChAux sep (m - 1) [] cs
    else pySplitChAux sep m (c :: acc) cs

/-- Python `s.split(sep, maxsplit)` for a one-character separator; a
negative `maxsplit` means unlimited (as in Python). -/
def pySplitCh (sep : Char) (s : Str) (m : Int) : List Str :=
  pySplitChAux sep m [] s

/-- Python `s.partition(sep)` restricted to the pieces the source uses:
the text before the first `sep` and the text after it (`(s, "")` when `sep`
does not occur, matching `partition`'s first and third components). -/
def pyPartition (sep : Char) (s : Str) : Str × Str :=
  match breakAt sep s with
  | Option.none => (s, [])
  | some pr => pr

/-- Python `", ".join` / `",".join` style joining. -/
def joinSep (sep : Str) : List Str → Str
  | [] => []
  | [x] => x
  | x :: xs => x ++ sep ++ joinSep sep xs

/-- Decimal digits of a natural number, most significant first. -/
def natToStr (n : Nat) : Str := Nat.toDigits 10 n

/-- Python `str(n)` for an int (also the result of `"{0:.0f}"` on integral
values of the magnitudes that occur here). -/
def intToStr (n : Int) : Str :=
  if n < 0 then '-' :: natToStr n.natAbs else natToStr n.toNat

/-- Python `"{:02}"` / `"{:02.0f}"`: zero-pad to width 2. -/
def pad2 (n : Int) : Str :=
  let s := intToStr n
  if s.length < 2 then '0' :: s else s

/-- Uppercase hexadecimal digits of a natural number, most significant first. -/
def natToHex (n : Nat) : Str := (Nat.toDigits 16 n).map Char.toUpper

/-- Python `"{:X}"` for an int. -/
def intToHex (n : Int) : Str :=
  if n < 0 then '-' :: natToHex n.natAbs else natToHex n.toNat

/-- Python `"{:02X}"`: zero-pad to width 2. -/
def hex02 (n : Int) : Str :=
  let s := intToHex n
  if s.length < 2 then '0' :: s else s

/-- Python exceptions distinguished by this development. -/
inductive PyErr where
  | valueError (msg : Str)
  | keyError
  | attributeError
  | typeError
  | notImplementedError
  deriving DecidableEq, Repr

/-- `ValueError` from `int(text)` (message payload abbreviated). -/
def intErr : PyErr := .valueError (pyStr "invalid literal for int() with base 10")

/-- `ValueError` from `int(text, 16)` (message payload abbreviated). -/
def hexErr : PyErr := .valueError (pyStr "invalid literal for int() with base 16")

/-- `ValueError` from `float(text)` (message payload abbreviated). -/
def floatErr : PyErr := .valueError (pyStr "could not convert string to float")

/-- `ValueError("color must start with &H")` from `Color.from_ass`. -/
def colorErr : PyErr := .valueError (pyStr "color must start with &H")

/-- `ValueError("arity of line does not match arity of field order")`
from `_Line.parse`. -/
def arityErr : PyErr := .valueError (pyStr "arity of line does not match arity of field order")

/-- `ValueError` from unpacking the wrong number of `:`-separated pieces in
`timedelta_from_ass` (message payload abbreviated). -/
def unpackErr : PyErr := .valueError (pyStr "wrong number of values to unpack")

/-- `ValueError("Duplicate keys provided for case insensitive dict")` from
`CaseInsensitiveOrderedDict.__init__`. -/
def dupKeyErr : PyErr := .valueError (pyStr "Duplicate keys provided for case insensitive dict")

/-- `ValueError` raised by `Document.parse_file` on a BOM (message
payload abbreviated). -/
def bomErr : PyErr := .valueError (pyStr "BOM detected")

/-- `ValueError("Content outside of any section.")` from `Document.parse_file`. -/
def outsideErr : PyErr := .valueError (pyStr "Content outside of any section.")

/-- `ValueError("unexpected {} line in {}")` from `LineSection.add_line`. -/
def unexpectedLineErr (tn sec : Str) : PyErr :=
  .valueError (pyStr "unexpected " ++ tn ++ pyStr " line in " ++ sec)

/-- Value of a decimal digit list. -/
def digitsToNat (ds : Str) : Nat := ds.foldl (fun a c => a * 10 + (c.toNat - 48)) 0

/-- Strip an optional sign, returning the sign factor and the rest. -/
def pySign : Str → Int × Str
  | '-' :: r => (-1, r)
  | '+' :: r => (1, r)
  | r => (1, r)

/-- Python `int(text)`: surrounding whitespace is stripped, an optional
sign precedes a non-empty digit string.  (Underscore digit separators and
non-ASCII digits, which Python also accepts, are not modelled; no input in
this development contains them.) -/
def pyInt (s : Str) : Except PyErr Int :=
  let t := pyStrip s
  let p := pySign t
  if p.2 ≠ [] && p.2.all Char.isDigit then .ok (p.1 * digitsToNat p.2)
  else .error intErr

/-- Hexadecimal digit value. -/
def hexVal (c : Char) : Nat :=
  if c.isDigit then c.toNat - 48
  else if 'a' ≤ c && c ≤ 'f' then c.toNat - 87
  else c.toNat - 55

/-- Is `c` a hexadecimal digit? -/
def isHexDigitCh (c : Char) : Bool :=
  c.isDigit || ('a' ≤ c && c ≤ 'f') || ('A' ≤ c && c ≤ 'F')

/-- Value of a hexadecimal digit list. -/
def hexDigitsToNat (ds : Str) : Nat := ds.foldl (fun a c => a * 16 + hexVal c) 0

/-- Python `int(text, 16)`: stripped, optional sign, optional `0x`/`0X`
prefix, non-empty hex digit string. -/
def pyIntHex (s : Str) : Except PyErr Int :=
  let t := pyStrip s
  let p := pySign t
  let ds :=
    match p.2 with
    | '0' :: 'x' :: r => r
    | '0' :: 'X' :: r => r
    | r => r
  if ds ≠ [] && ds.all isHexDigitCh then .ok (p.1 * hexDigitsToNat ds)
  else .error hexErr

/-- Python `float(text)` modelled exactly over `ℚ` for plain decimal
literals (optional sign, digits, optional fractional digits; at least one
digit overall).  IEEE-754 rounding, exponent forms and `inf`/`nan` are
outside the model: no theorem in this file evaluates a float parse, the
definition exists only so that the `Style` record type is complete. -/
def pyFloat (s : Str) : Except PyErr ℚ :=
  let t := pyStrip s
  let p := pySign t
  let q := pyPartition '.' p.2
  if (q.1 ≠ [] || q.2 ≠ []) && q.1.all Char.isDigit && q.2.all Char.isDigit then
    .ok ((p.1 : ℚ) *
      Rat.divInt (digitsToNat q.1 * 10 ^ q.2.length + digitsToNat q.2) (10 ^ q.2.length))
  else .error floatErr

/-- Python `"{0:g}"` formatting, modelled for integer-valued floats only
(the source's IEEE-754 6-significant-digit behaviour is outside the model;
no theorem in this file dumps a non-integral float). -/
def formatG (q : ℚ) : Str :=
  if q.den = 1 then intToStr q.num
  else intToStr q.num ++ '/' :: natToStr q.den

/-- A Python value as stored in a record field or field section.
`td us` is a `datetime.timedelta` of exactly `us` microseconds (the
internal normalized representation); `float` is modelled as an exact
rational. -/
inductive PyVal where
  | str (s : Str)
  | int (n : Int)
  | bool (b : Bool)
  | td (us : Int)
  | color (r g b a : Int)
  | float (q : ℚ)
  | pynone
  deriving DecidableEq, Repr

/-- `Color.to_ass`: `"&H{a:02X}{b:02X}{g:02X}{r:02X}"`. -/
def color_to_ass (r g b a : Int) : Str :=
  pyStr "&H" ++ hex02 a ++ hex02 b ++ hex02 g ++ hex02 r

/-- `Color.from_ass`: requires the `&H` prefix, parses the rest as hex and
extracts the four 8-bit channels low-to-high as red, green, blue, alpha.
Python's `& 0xFF` and `>>= 8` on a (possibly negative) int are the
mathematical mod and floor-division by 256. -/
def color_from_ass (v : Str) : Except PyErr PyVal :=
  if ¬ pyStartsWith v (pyStr "&H") then .error colorErr
  else
    match pyIntHex (v.drop 2) with
    | .error e => .error e
    | .ok rest =>
      let r := rest % 256
      let rest1 := rest / 256
      let g := rest1 % 256
      let rest2 := rest1 / 256
      let b := rest2 % 256
      let rest3 := rest2 / 256
      let a := rest3 % 256
      .ok (.color r g b a)

/-- `_Field.timedelta_to_ass` on a timedelta of `us` microseconds.
`int(td.total_seconds())` truncates toward zero (`Int.tdiv`; exact at the
microsecond resolution of the model), `divmod` is floor division with a
non-negative remainder (for the positive divisors used here this is `ℤ`'s
Euclidean `/` and `%`), and `td.microseconds` is the non-negative
microsecond component of the normalized timedelta, i.e. `us % 10^6`. -/
def timedelta_to_ass (us : Int) : Str :=
  let r := Int.tdiv us 1000000
  let secs := r % 60
  let r1 := r / 60
  let mins := r1 % 60
  let hours := r1 / 60
  let csecs := us % 1000000 / 10000
  intToStr hours ++ ':' :: pad2 mins ++ ':' :: pad2 secs ++ '.' :: pad2 csecs

/-- `_Field.timedelta_from_ass`: partition on the first `.`, split the
time-of-day part on `:` into exactly three integers, and add
`int(csecs) * 1e-2` seconds.  The resulting timedelta is
`(h*3600 + m*60 + s) * 10^6 + cc * 10^4` microseconds; the source computes
this through float seconds, which rounds to exactly this value at the
centisecond-resolution magnitudes occurring in this development. -/
def timedelta_from_ass (v : Str) : Except PyErr PyVal :=
  let p := pyPartition '.' v
  match pySplitCh ':' p.1 (-1) with
  | [hs, ms, ss] =>
    match pyInt hs with
    | .error e => .error e
    | .ok h =>
      match pyInt ms with
      | .error e => .error e
      | .ok m =>
        match pyInt ss with
        | .error e => .error e
        | .ok s =>
          match pyInt p.2 with
          | .error e => .error e
          | .ok cc => .ok (.td ((h * 3600 + m * 60 + s) * 1000000 + cc * 10000))
  | _ => .error unpackErr

/-- The declared type of a field descriptor (`_Field.type`). -/
inductive FieldType where
  | str
  | int
  | float
  | bool
  | td
  | color
  deriving DecidableEq, Repr

/-- `_Field.parse`, dispatching on the declared type in the source's order:
`bool` is `bool(-int(v))`, `timedelta` uses `timedelta_from_ass`, a type
with a `from_ass` classmethod (Color) decodes through it, and the primitive
types call their constructor on the text. -/
def fieldParse (t : FieldType) (v : Str) : Except PyErr PyVal :=
  match t with
  | .bool => (pyInt v).map (fun n => .bool (decide (¬ -n = 0)))
  | .td => timedelta_from_ass v
  | .color => color_from_ass v
  | .str => .ok (.str v)
  | .int => (pyInt v).map .int
  | .float => (pyFloat v).map .float

/-- The static `_Field.dump`: `None` dumps to `""`, `bool` to
`str(-int(v))`, `timedelta` through `timedelta_to_ass`, `float` through
`"{0:g}"`, a value with a `to_ass` method (Color) through it, and
everything else through `str(v)`. -/
def fieldDump (v : PyVal) : Str :=
  match v with
  | .pynone => []
  | .bool b => intToStr (-(if b then 1 else 0))
  | .td us => timedelta_to_ass us
  | .float q => formatG q
  | .color r g b a => color_to_ass r g b a
  | .str s => s
  | .int n => intToStr n

/-- The character `{` (written via its code point to keep brace characters
out of string literals). -/
def lbraceCh : Char := Char.ofNat 123

/-- The character `}`. -/
def rbraceCh : Char := Char.ofNat 125

/-- A `Tag` object as constructed by `Tag.__init__(name, params)`: the
`params` argument is stored under the attribute `param` (the source
assigns `self.param = params`); no attribute named `params` is ever set
on a Tag instance.  Parameters are modelled as ints, which covers every
tag this development touches. -/
structure Tag where
  name : Str
  param : List Int
  deriving DecidableEq, Repr

/-- Python attribute lookup `t.params` on a Tag instance: `__init__` only
sets `name` and `param`, so the lookup raises `AttributeError`. -/
def Tag.getattr_ps (_ : Tag) : Except PyErr (List Int) := .error .attributeError

/-- `Tag.from_ass`: the source raises `NotImplementedError`. -/
def Tag.from_ass (_ : Str) : Except PyErr Tag := .error .notImplementedError

/-- One segment produced by `Dialogue.parse_parts`: a plain-text run or a
tag invocation. -/
inductive DiaPart where
  | text (s : Str)
  | tag (t : Tag)
  deriving DecidableEq, Repr

/-- The inner loop of `Dialogue.parse_parts` after an unescaped `{`:
collect characters verbatim until the next `}` (consumed) or end of input,
returning the collected tag text and the remaining input. -/
def collectTag : Str → Str × Str
  | [] => ([], [])
  | c :: cs =>
    if c == rbraceCh then ([], cs)
    else
      let p := collectTag cs
      (c :: p.1, p.2)

theorem collectTag_length_le : ∀ s : Str, (collectTag s).2.length ≤ s.length := by
  intro s
  induction s with
  | nil => simp [collectTag]
  | cons c cs ih =>
    by_cases hc : (c == rbraceCh) = true
    · simp [collectTag, hc]
    · simp only [collectTag, hc, if_false, Bool.false_eq_true]
      exact Nat.le_trans ih (Nat.le_succ _)

/-- The scanning loop of `Dialogue.parse_parts`, processing the remaining
input given the pending-backslash state and the accumulated plain-text run.
An escaped `{` is appended literally with the escape cleared; any other
escaped character keeps its backslash; an unescaped `{` first emits the
pending run, then collects the tag text up to `}` and calls `Tag.from_ass`
on it (which raises `NotImplementedError`); a bare `\` sets the escape
state; a pending escape at end of input is emitted as a literal backslash;
a non-empty final run is emitted. -/
def parse_partsAux : Str → Bool → Str → Except PyErr (List DiaPart)
  | [], false, current =>
    .ok (if current.isEmpty then [] else [.text current])
  | [], true, current =>
    let current2 := current ++ ['\\']
    .ok (if current2.isEmpty then [] else [.text current2])
  | c :: rest, true, current =>
    if c == lbraceCh then parse_partsAux rest false (current ++ [c])
    else parse_partsAux rest false (current ++ ['\\', c])
  | c :: rest, false, current =>
    if c == lbraceCh then
      let emitted := if current.isEmpty then [] else [DiaPart.text current]
      let p := collectTag rest
      match Tag.from_ass p.1 with
      | .error e => .error e
      | .ok t =>
        match parse_partsAux p.2 false [] with
        | .error e => .error e
        | .ok tail => .ok (emitted ++ DiaPart.tag t :: tail)
    else if c == '\\' then parse_partsAux rest true current
    else parse_partsAux rest false (current ++ [c])
termination_by s _ _ => s.length
decreasing_by
  · simp only [List.length_cons]; omega
  · simp only [List.length_cons]; omega
  · simp only [List.length_cons]
    exact Nat.lt_succ_of_le (collectTag_length_le rest)
  · simp only [List.length_cons]; omega
  · simp only [List.length_cons]; omega

/-- `Dialogue.parse_parts` applied to a dialogue text. -/
def parse_parts (text : Str) : Except PyErr (List DiaPart) :=
  parse_partsAux text false []

/-- The inner loop of `Tag.strip_tags` after an "enter drawing mode" tag:
consume parts until a matching exit tag is seen.  Like the outer loop it
short-circuits on `isinstance` and the name check before reading
`part2.params` (which would raise `AttributeError`); it returns the input
remaining after the loop. -/
def skipDrawing : List DiaPart → Except PyErr (List DiaPart)
  | [] => .ok []
  | .text _ :: rest => skipDrawing rest
  | .tag t :: rest =>
    if t.name == pyStr "p" then
      match Tag.getattr_ps t with
      | .error e => .error e
      | .ok ps => if ps == [0] then .ok rest else skipDrawing rest
    else skipDrawing rest

theorem skipDrawing_length_le :
    ∀ {parts rest : List DiaPart}, skipDrawing parts = .ok rest → rest.length ≤ parts.length := by
  intro parts
  induction parts with
  | nil => intro rest h; simp [skipDrawing] at h; simp [← h]
  | cons p ps ih =>
    intro rest h
    match p with
    | .text s =>
      simp only [skipDrawing] at h
      exact Nat.le_trans (ih h) (Nat.le_succ _)
    | .tag t =>
      simp only [skipDrawing] at h
      by_cases hn : (t.name == pyStr "p") = true
      · simp [hn, Tag.getattr_ps] at h
      · simp only [hn, if_false, Bool.false_eq_true] at h
        exact Nat.le_trans (ih h) (Nat.le_succ _)

/-- `Tag.strip_tags(parts, keep_drawing_commands)`: walk the segments,
collect plain-text runs, and on a tag — when drawing commands are not kept
and the tag's name is `"p"` — read `part.params` (which `Tag.__init__`
never set) to decide whether to skip to the matching exit tag; finally
join the collected runs. -/
def strip_tags (parts : List DiaPart) (keep_drawing_commands : Bool) : Except PyErr Str :=
  match parts with
  | [] => .ok []
  | .text s :: rest =>
    match strip_tags rest keep_drawing_commands with
    | .error e => .error e
    | .ok tl => .ok (s ++ tl)
  | .tag t :: rest =>
    if !keep_drawing_commands && t.name == pyStr "p" then
      match Tag.getattr_ps t with
      | .error e => .error e
      | .ok ps =>
        if ps == [1] then
          match h : skipDrawing rest with
          | .error e => .error e
          | .ok rem => strip_tags rem keep_drawing_commands
        else strip_tags rest keep_drawing_commands
    else strip_tags rest keep_drawing_commands
termination_by parts.length
decreasing_by
  · simp only [List.length_cons]; omega
  · simp only [List.length_cons]
    exact Nat.lt_succ_of_le (skipDrawing_length_le h)
  · simp only [List.length_cons]; omega
  · simp only [List.length_cons]; omega

/-! ### Records and line classes (`_Field` descriptors, `_WithFieldMeta`,
`_Line` and its subclasses) -/

/-- A field descriptor `_Field(name, type, default)`; `ftype` models the
`type` attribute and `dflt` the `default` attribute.  The declaration-order
index is implicit in the order of the `field_defs` lists below. -/
structure FieldDef where
  name : Str
  ftype : FieldType
  dflt : PyVal
  deriving DecidableEq, Repr

/-- Lookup in a Python dict modelled as an ordered association list
(first match; the dicts built in this development have unique keys). -/
def dictGet {α : Type} : List (Str × α) → Str → Option α
  | [], _ => Option.none
  | kv :: rest, k => if kv.1 == k then some kv.2 else dictGet rest k

/-- Python dict assignment `d[k] = v`: update in place when the key is
present (keeping its position), else append. -/
def dictSet {α : Type} : List (Str × α) → Str → α → List (Str × α)
  | [], k, v => [(k, v)]
  | kv :: rest, k, v => if kv.1 == k then (k, v) :: rest else kv :: dictSet rest k v

/-- The keys of a dict in order. -/
def dictKeys {α : Type} (d : List (Str × α)) : List Str := d.map Prod.fst

/-- A `_Line` subclass: the class-level `TYPE` and the `_field_defs` tuple
assembled by `_WithFieldMeta` (ancestor fields first, then own fields in
declaration order). -/
structure LineClass where
  type_tag : Option Str
  field_defs : List FieldDef
  deriving DecidableEq, Repr

/-- `DEFAULT_FIELD_ORDER`: the field names in declaration order. -/
def LineClass.names (cls : LineClass) : List Str := cls.field_defs.map FieldDef.name

/-- `_field_mappings`: the name-to-descriptor dict (later definitions
winning, as successive `update` calls do). -/
def LineClass.mappings (cls : LineClass) : List (Str × FieldDef) :=
  cls.field_defs.foldl (fun d f => dictSet d f.name f) []

/-- A `_Line` instance: its `TYPE` attribute, its `fields` dict, and its
class's `DEFAULT_FIELD_ORDER` (consulted when dumping without an explicit
field order). -/
structure Record where
  TYPE : Option Str
  fields : List (Str × PyVal)
  DEFAULT_FIELD_ORDER : List Str
  deriving DecidableEq, Repr

/-- `_Line.__init__` as invoked by `_Line.parse` (keyword arguments only,
no positional arguments): `fields` starts as the declaration-order
defaults dict and each keyword argument is assigned over it.  The
`hasattr(self, k)`/`setattr` branch differs from plain dict assignment
only when a field-order name coincides with a (lower-case) descriptor
attribute or a method name of the class; no field order in this
development does, so the assignment lands in the `fields` dict either
way. -/
def lineInit (cls : LineClass) (kwargs : List (Str × PyVal)) (type_name : Option Str) :
    Record :=
  let fields0 := cls.field_defs.foldl (fun d f => dictSet d f.name f.dflt) []
  { TYPE :=
      match cls.type_tag with
      | some t => some t
      | Option.none => type_name
    fields := kwargs.foldl (fun d kv => dictSet d kv.1 kv.2) fields0
    DEFAULT_FIELD_ORDER := cls.names }

/-- The field-decoding loop of `_Line.parse`: each part is decoded through
the descriptor matching its field name when the class declares one, else
stored as raw text; assignments build the dict in zip order. -/
def lineFieldsAux (cls : LineClass) :
    List (Str × Str) → List (Str × PyVal) → Except PyErr (List (Str × PyVal))
  | [], acc => .ok acc
  | (name, part) :: rest, acc =>
    match dictGet cls.mappings name with
    | some f =>
      match fieldParse f.ftype part with
      | .error e => .error e
      | .ok v => lineFieldsAux cls rest (dictSet acc name v)
    | Option.none => lineFieldsAux cls rest (dictSet acc name (.str part))

/-- `_Line.parse(type_name, line, field_order)`: split the line on commas
with at most `len(field_order) - 1` cuts, fail with the arity error when
the part count differs from the field count, decode each part, and build
the record. -/
def lineParse (cls : LineClass) (type_name : Str) (line : Str)
    (field_order : Option (List Str)) : Except PyErr Record :=
  let fo := field_order.getD cls.names
  let parts := pySplitCh ',' line ((fo.length : Int) - 1)
  if parts.length ≠ fo.length then .error arityErr
  else
    match lineFieldsAux cls (fo.zip parts) [] with
    | .error e => .error e
    | .ok kwargs => .ok (lineInit cls kwargs (some type_name))

/-- The field-value loop of `_Line.dump`: `self.fields[field]` for each
name in the order (raising `KeyError` on a missing field), each through
`_Field.dump`. -/
def lineDumpVals (r : Record) : List Str → Except PyErr (List Str)
  | [] => .ok []
  | f :: rest =>
    match dictGet r.fields f with
    | Option.none => .error .keyError
    | some v =>
      match lineDumpVals r rest with
      | .error e => .error e
      | .ok tl => .ok (fieldDump v :: tl)

/-- `_Line.dump(field_order)`: the field values joined by commas (class
default order when no order is given). -/
def lineDump (r : Record) (field_order : Option (List Str)) : Except PyErr Str :=
  match lineDumpVals r (field_order.getD r.DEFAULT_FIELD_ORDER) with
  | .error e => .error e
  | .ok vs => .ok (joinSep (pyStr ",") vs)

/-- `_Line.dump_with_type`: `self.TYPE + ": " + self.dump(...)`; a `None`
type tag would make the string concatenation raise `TypeError`. -/
def lineDumpWithType (r : Record) (field_order : Option (List Str)) : Except PyErr Str :=
  match r.TYPE with
  | Option.none => .error .typeError
  | some t =>
    match lineDump r field_order with
    | .error e => .error e
    | .ok s => .ok (t ++ pyStr ": " ++ s)

/-- The `Unknown` line class: `TYPE = None` and the single opaque `Value`
field with default `""`. -/
def UnknownC : LineClass := ⟨Option.none, [⟨pyStr "Value", .str, .str []⟩]⟩

/-- The `_Event` field descriptors, shared by all event classes. -/
def eventFieldDefs : List FieldDef :=
  [⟨pyStr "Layer", .int, .int 0⟩,
   ⟨pyStr "Start", .td, .td 0⟩,
   ⟨pyStr "End", .td, .td 0⟩,
   ⟨pyStr "Style", .str, .str (pyStr "Default")⟩,
   ⟨pyStr "Name", .str, .str []⟩,
   ⟨pyStr "MarginL", .int, .int 0⟩,
   ⟨pyStr "MarginR", .int, .int 0⟩,
   ⟨pyStr "MarginV", .int, .int 0⟩,
   ⟨pyStr "Effect", .str, .str []⟩,
   ⟨pyStr "Text", .str, .str []⟩]

/-- The `Dialogue` event class. -/
def DialogueC : LineClass := ⟨some (pyStr "Dialogue"), eventFieldDefs⟩

/-- The `Comment` event class. -/
def CommentC : LineClass := ⟨some (pyStr "Comment"), eventFieldDefs⟩

/-- The `Picture` event class. -/
def PictureC : LineClass := ⟨some (pyStr "Picture"), eventFieldDefs⟩

/-- The `Sound` event class. -/
def SoundC : LineClass := ⟨some (pyStr "Sound"), eventFieldDefs⟩

/-- The `Movie` event class. -/
def MovieC : LineClass := ⟨some (pyStr "Movie"), eventFieldDefs⟩

/-- The `Command` event class. -/
def CommandC : LineClass := ⟨some (pyStr "Command"), eventFieldDefs⟩

/-- The `Style` line class with its 23 fields and defaults (the numeric
defaults of the float-typed fields are Python ints in the source, hence
`.int` values here). -/
def StyleC : LineClass :=
  ⟨some (pyStr "Style"),
   [⟨pyStr "Name", .str, .str (pyStr "Default")⟩,
    ⟨pyStr "Fontname", .str, .str (pyStr "Arial")⟩,
    ⟨pyStr "Fontsize", .float, .int 20⟩,
    ⟨pyStr "PrimaryColour", .color, .color 255 255 255 0⟩,
    ⟨pyStr "SecondaryColour", .color, .color 255 0 0 0⟩,
    ⟨pyStr "OutlineColour", .color, .color 0 0 0 0⟩,
    ⟨pyStr "BackColour", .color, .color 0 0 0 0⟩,
    ⟨pyStr "Bold", .bool, .bool false⟩,
    ⟨pyStr "Italic", .bool, .bool false⟩,
    ⟨pyStr "Underline", .bool, .bool false⟩,
    ⟨pyStr "StrikeOut", .bool, .bool false⟩,
    ⟨pyStr "ScaleX", .float, .int 100⟩,
    ⟨pyStr "ScaleY", .float, .int 100⟩,
    ⟨pyStr "Spacing", .float, .int 0⟩,
    ⟨pyStr "Angle", .float, .int 0⟩,
    ⟨pyStr "BorderStyle", .int, .int 1⟩,
    ⟨pyStr "Outline", .float, .int 2⟩,
    ⟨pyStr "Shadow", .float, .int 2⟩,
    ⟨pyStr "Alignment", .int, .int 2⟩,
    ⟨pyStr "MarginL", .int, .int 10⟩,
    ⟨pyStr "MarginR", .int, .int 10⟩,
    ⟨pyStr "MarginV", .int, .int 10⟩,
    ⟨pyStr "Encoding", .int, .int 1⟩]⟩

/-! ### Theorems for the override-tag scanner claims (C2, C3, C4) -/

theorem parse_partsAux_ok_only_text :
    ∀ (s : Str) (b : Bool) (cur : Str) (parts : List DiaPart),
      parse_partsAux s b cur = .ok parts → ∀ p ∈ parts, ∃ t, p = DiaPart.text t := by
  intro s
  induction s with
  | nil =>
    intro b cur parts h p hp
    cases b
    · simp only [parse_partsAux, Except.ok.injEq] at h
      subst h
      by_cases hc : cur.isEmpty
      · simp [hc] at hp
      · simp [hc] at hp
        exact ⟨cur, hp⟩
    · simp only [parse_partsAux, Except.ok.injEq] at h
      subst h
      by_cases hc : (cur ++ ['\\']).isEmpty
      · simp [hc] at hp
      · simp [hc] at hp
        exact ⟨cur ++ ['\\'], hp⟩
  | cons c cs ih =>
    intro b cur parts h p hp
    cases b
    · by_cases h1 : (c == lbraceCh) = true
      · simp only [parse_partsAux, h1, if_true, Tag.from_ass] at h
        simp at h
      · by_cases h2 : (c == '\\') = true
        · simp only [parse_partsAux, h1, h2, if_true, Bool.false_eq_true, if_false] at h
          exact ih true cur parts h p hp
        · simp only [parse_partsAux, h1, h2, Bool.false_eq_true, if_false] at h
          exact ih false (cur ++ [c]) parts h p hp
    · by_cases h1 : (c == lbraceCh) = true
      · simp only [parse_partsAux, h1, if_true] at h
        exact ih false (cur ++ [c]) parts h p hp
      · simp only [parse_partsAux, h1, Bool.false_eq_true, if_false] at h
        exact ih false (cur ++ ['\\', c]) parts h p hp

/-- C2, counterexample.  Scanning `"plain{\b1}bold{\b0}plain2"` does not
produce the five claimed segments: the first `{...}` block makes the
scanner call `Tag.from_ass`, which raises `NotImplementedError`, so no
segment list is produced at all. -/
theorem C2_counterexample :
    parse_parts (pyStr "plain\x7b\\b1\x7dbold\x7b\\b0\x7dplain2")
      = .error .notImplementedError := by
  simp [parse_parts, parse_partsAux, pyStr, lbraceCh, collectTag, Tag.from_ass]

/-- C2, amended.  The scanner emits the characters outside `{...}` blocks
as plain-text runs, but an unescaped `{` makes it call the unimplemented
`Tag.from_ass` on the block's tag text, raising `NotImplementedError`.
Hence every successful scan consists of plain-text segments only (no
tag-invocation segment is ever produced), and a block-free text such as
`"plain"` scans to its single plain-text run. -/
theorem C2_scan_no_tag_segments :
    (∀ (s : Str) (parts : List DiaPart),
        parse_parts s = .ok parts → ∀ p ∈ parts, ∃ t, p = DiaPart.text t) ∧
    parse_parts (pyStr "plain") = .ok [DiaPart.text (pyStr "plain")] := by
  constructor
  · intro s parts h
    exact parse_partsAux_ok_only_text s false [] parts h
  · simp [parse_parts, parse_partsAux, pyStr, lbraceCh]

/-- Witness for `C2_scan_no_tag_segments` at the concrete input
`"plain"`. -/
theorem C2_scan_no_tag_segments_witness :
    ∃ t, DiaPart.text (pyStr "plain") = DiaPart.text t :=
  C2_scan_no_tag_segments.1 (pyStr "plain") [DiaPart.text (pyStr "plain")]
    C2_scan_no_tag_segments.2 (DiaPart.text (pyStr "plain")) (by simp)

/-- C3.  A backslash-escaped `{` is taken as a literal `{` (the scanner
continues in cleared escape state with the brace appended to the current
plain-text run, opening no tag block); a backslash pending at end of input
is emitted as a literal backslash; and scanning `"a\{b"` yields the single
plain-text segment `"a{b"`. -/
theorem C3_escaped_brace_and_trailing_backslash :
    (∀ (rest cur : Str),
        parse_partsAux (lbraceCh :: rest) true cur
          = parse_partsAux rest false (cur ++ [lbraceCh])) ∧
    (∀ cur : Str, parse_partsAux [] true cur = .ok [DiaPart.text (cur ++ ['\\'])]) ∧
    parse_parts (pyStr "a\\\x7bb") = .ok [DiaPart.text (pyStr "a\x7bb")] := by
  refine ⟨fun rest cur => ?_, fun cur => ?_, ?_⟩
  · simp [parse_partsAux]
  · simp [parse_partsAux]
  · simp [parse_parts, parse_partsAux, pyStr, lbraceCh, collectTag, Tag.from_ass]

/-- C4.  With drawing commands not kept, `strip_tags` raises
`AttributeError` as soon as it reaches a tag named `"p"`: the
`part.params == [1]` test looks up an attribute that `Tag.__init__` never
set (it stored the list under `param`), so the drawing-mode span is not
discarded.  Tags with other names are skipped and the plain-text segments
are concatenated, as the second conjunct shows. -/
theorem C4_strip_tags_attribute_error :
    strip_tags [DiaPart.tag ⟨pyStr "p", [1]⟩, DiaPart.text (pyStr "x")] false
        = .error .attributeError ∧
    strip_tags [DiaPart.tag ⟨pyStr "b", [1]⟩, DiaPart.text (pyStr "x"),
        DiaPart.tag ⟨pyStr "i", [0]⟩, DiaPart.text (pyStr "y")] false
        = .ok (pyStr "xy") := by
  constructor
  · simp [strip_tags, Tag.getattr_ps, pyStr]
  · simp [strip_tags, Tag.getattr_ps, pyStr]

/-! ### Theorems for the scalar codec claims (C6, C7, C8) -/

/-- C6.  The boolean field codec dumps `True` as `"-1"` and `False` as
`"0"`, parses any integer literal with non-zero magnitude as `True` and
zero as `False`, and round-trips. -/
theorem C6_bool_codec :
    (∀ b : Bool, fieldParse .bool (fieldDump (.bool b)) = .ok (.bool b)) ∧
    fieldDump (.bool true) = pyStr "-1" ∧
    fieldDump (.bool false) = pyStr "0" ∧
    (∀ (s : Str) (n : Int), pyInt s = .ok n →
        fieldParse .bool s = .ok (.bool (decide (n ≠ 0)))) := by
  refine ⟨?_, by decide, by decide, ?_⟩
  · intro b; cases b <;> decide
  · intro s n h
    simp only [fieldParse, h, Except.map]
    simp [neg_eq_zero]

/-- Witness for `C6_bool_codec` at the concrete literal `"7"`. -/
theorem C6_bool_codec_witness :
    fieldParse .bool (pyStr "7") = .ok (.bool true) := by
  have h := C6_bool_codec.2.2.2 (pyStr "7") 7 (by decide)
  simpa using h

theorem pad2_length {n : Int} (h0 : 0 ≤ n) (h1 : n < 100) : (pad2 n).length = 2 := by
  have h := (by decide : ∀ k : Nat, k < 100 → (pad2 (k : Int)).length = 2)
  have hn : n = ((n.toNat : Nat) : Int) := by omega
  rw [hn]
  exact h n.toNat (by omega)

/-- C7, amended.  Every dump of the duration codec has the text form
`H:MM:SS.CC` with the hour part unpadded and the minute, second and
centisecond parts zero-padded to exactly two digits; for *non-negative*
spans dumping truncates (rather than rounds) sub-centisecond precision;
parsing `"1:02:03.45"` yields the span of 1 hour, 2 minutes and 3.45
seconds, which dumps back to `"1:02:03.45"`.  For negative spans the dump
does not truncate the span: `int()` truncation toward zero combines with
floor `divmod` and the normalized non-negative microsecond component, so
the −0.995 s span dumps as `"0:00:00.00"`, the text of the zero span (see
`C7_duration_counterexample`). -/
theorem C7_duration_codec :
    (∀ us : Int, ∃ (h m s c : Int),
        0 ≤ m ∧ m < 60 ∧ 0 ≤ s ∧ s < 60 ∧ 0 ≤ c ∧ c < 100 ∧
        (pad2 m).length = 2 ∧ (pad2 s).length = 2 ∧ (pad2 c).length = 2 ∧
        timedelta_to_ass us
          = intToStr h ++ ':' :: pad2 m ++ ':' :: pad2 s ++ '.' :: pad2 c) ∧
    (∀ us : Int, 0 ≤ us →
        timedelta_to_ass us = timedelta_to_ass (10000 * (us / 10000))) ∧
    timedelta_from_ass (pyStr "1:02:03.45")
      = .ok (.td ((1 * 3600 + 2 * 60 + 3) * 1000000 + 450000)) ∧
    timedelta_to_ass ((1 * 3600 + 2 * 60 + 3) * 1000000 + 450000) = pyStr "1:02:03.45" ∧
    timedelta_to_ass (-995000) = pyStr "0:00:00.00" ∧
    timedelta_to_ass 0 = pyStr "0:00:00.00" := by
  refine ⟨?_, ?_, by decide, by decide, by decide, by decide⟩
  · intro us
    refine ⟨Int.tdiv us 1000000 / 60 / 60,
      Int.tdiv us 1000000 / 60 % 60,
      Int.tdiv us 1000000 % 60,
      us % 1000000 / 10000, ?_, ?_, ?_, ?_, ?_, ?_, ?_, ?_, ?_, ?_⟩
    · omega
    · omega
    · omega
    · omega
    · omega
    · omega
    · exact pad2_length (by omega) (by omega)
    · exact pad2_length (by omega) (by omega)
    · exact pad2_length (by omega) (by omega)
    · rfl
  · intro us h0
    have hq : (0 : Int) ≤ 10000 * (us / 10000) := by omega
    have h1 : Int.tdiv us 1000000 = Int.tdiv (10000 * (us / 10000)) 1000000 := by
      rw [Int.tdiv_eq_ediv h0 (by decide), Int.tdiv_eq_ediv hq (by decide)]
      omega
    have h2 : us % 1000000 / 10000
        = (10000 * (us / 10000)) % 1000000 / 10000 := by
      omega
    simp only [timedelta_to_ass]
    rw [h1, h2]

/-- Witness for `C7_duration_codec`: truncation at a concrete
sub-centisecond timedelta (19999 microseconds truncates to the same dump
as 10000 microseconds, namely `"0:00:00.01"`). -/
theorem C7_duration_codec_witness :
    timedelta_to_ass 19999 = timedelta_to_ass (10000 * ((19999 : Int) / 10000)) ∧
    timedelta_to_ass 19999 = pyStr "0:00:00.01" :=
  ⟨C7_duration_codec.2.1 19999 (by decide), by decide⟩

/-- C7, counterexample.  Dumping does not truncate sub-centisecond
precision on negative spans, so the claim fails for "every signed time
span": the −0.995 s span (−995000 µs) dumps as `"0:00:00.00"` — the text
of the zero span — while both candidate sub-centisecond truncations of
−0.995 s dump differently: −0.99 s (truncation toward zero) dumps as
`"0:00:00.01"` and −1.00 s (truncation toward −∞, the value
`10000 * (-995000 / 10000)` of the truncation law proved for non-negative
spans) dumps as `"-1:59:59.00"`. -/
theorem C7_duration_counterexample :
    timedelta_to_ass (-995000) = pyStr "0:00:00.00" ∧
    timedelta_to_ass (-990000) = pyStr "0:00:00.01" ∧
    timedelta_to_ass (10000 * ((-995000 : Int) / 10000)) = pyStr "-1:59:59.00" ∧
    timedelta_to_ass (-995000) ≠ timedelta_to_ass (10000 * ((-995000 : Int) / 10000)) := by
  refine ⟨by decide, by decide, by decide, by decide⟩

theorem hex02_facts :
    ∀ k : Nat, k < 256 →
      (hex02 (k : Int)).length = 2 ∧ ∀ c ∈ hex02 (k : Int), isHexDigitCh c = true := by
  decide

/-- C8.  The color codec dumps a color whose channels are in `[0, 256)` as
`"&H"` followed by 8 hexadecimal digits in the byte order alpha, blue,
green, red (most significant first); dumping red `0xAA`, green `0xBB`,
blue `0xCC`, alpha `0xDD` yields `"&HDDCCBBAA"`; parsing `"&H00000000"`
yields all four channels zero; and parsing a text that does not start with
`"&H"` fails with the unsupported-color-literal error. -/
theorem C8_color_codec :
    (∀ r g b a : Int, 0 ≤ r → r < 256 → 0 ≤ g → g < 256 → 0 ≤ b → b < 256 →
        0 ≤ a → a < 256 →
        color_to_ass r g b a = pyStr "&H" ++ hex02 a ++ hex02 b ++ hex02 g ++ hex02 r ∧
        (color_to_ass r g b a).length = 10 ∧
        ∀ c ∈ hex02 a ++ hex02 b ++ hex02 g ++ hex02 r, isHexDigitCh c = true) ∧
    color_to_ass 0xAA 0xBB 0xCC 0xDD = pyStr "&HDDCCBBAA" ∧
    color_from_ass (pyStr "&H00000000") = .ok (.color 0 0 0 0) ∧
    (∀ s : Str, pyStartsWith s (pyStr "&H") = false → color_from_ass s = .error colorErr) := by
  refine ⟨?_, by decide, by decide, ?_⟩
  · intro r g b a hr0 hr1 hg0 hg1 hb0 hb1 ha0 ha1
    have fr := hex02_facts r.toNat (by omega)
    have fg := hex02_facts g.toNat (by omega)
    have fb := hex02_facts b.toNat (by omega)
    have fa := hex02_facts a.toNat (by omega)
    rw [show ((r.toNat : Nat) : Int) = r by omega] at fr
    rw [show ((g.toNat : Nat) : Int) = g by omega] at fg
    rw [show ((b.toNat : Nat) : Int) = b by omega] at fb
    rw [show ((a.toNat : Nat) : Int) = a by omega] at fa
    refine ⟨rfl, ?_, ?_⟩
    · simp [color_to_ass, pyStr, fr.1, fg.1, fb.1, fa.1]
    · intro c hc
      simp only [List.mem_append] at hc
      rcases hc with ((hc | hc) | hc) | hc
      · exact fa.2 c hc
      · exact fb.2 c hc
      · exact fg.2 c hc
      · exact fr.2 c hc
  · intro s h
    simp [color_from_ass, h]

/-- Witness for `C8_color_codec` at concrete channel values. -/
theorem C8_color_codec_witness :
    (color_to_ass 0 17 34 255).length = 10 ∧
    color_from_ass (pyStr "xyz") = .error colorErr :=
  ⟨((C8_color_codec.1 0 17 34 255 (by decide) (by decide) (by decide) (by decide)
      (by decide) (by decide) (by decide) (by decide)).2.1),
    C8_color_codec.2.2.2 (pyStr "xyz") (by decide)⟩

/-! ### The case-insensitive ordered dictionary (C9) -/

/-- `CaseInsensitiveOrderedDict`: the backing `OrderedDict` (`dict`,
original-case keys in insertion order) and the `_case_mapping` dict from
lowercased key to original-case key. -/
structure CIOD (α : Type) where
  dict : List (Str × α)
  case_mapping : List (Str × Str)
  deriving DecidableEq, Repr

/-- `__getitem__`: `self._dict[self._case_mapping[key.lower()]]`; a miss
in either dict raises `KeyError`. -/
def ciodGet {α : Type} (m : CIOD α) (k : Str) : Except PyErr α :=
  match dictGet m.case_mapping (pyLower k) with
  | Option.none => .error .keyError
  | some orig =>
    match dictGet m.dict orig with
    | Option.none => .error .keyError
    | some v => .ok v

/-- `__setitem__`: record the casing on first insertion
(`if key.lower() not in case_mapping: case_mapping[key.lower()] = key`),
then assign through the recorded original-case key
(`dict[case_mapping[key.lower()]] = value`). -/
def ciodSet {α : Type} (m : CIOD α) (k : Str) (v : α) : CIOD α :=
  let cm :=
    match dictGet m.case_mapping (pyLower k) with
    | Option.none => dictSet m.case_mapping (pyLower k) k
    | some _ => m.case_mapping
  let orig := (dictGet cm (pyLower k)).getD k
  ⟨dictSet m.dict orig v, cm⟩

/-- `__contains__` (inherited from `MutableMapping`: try `__getitem__`,
catch `KeyError`). -/
def ciodContains {α : Type} (m : CIOD α) (k : Str) : Bool :=
  match ciodGet m k with
  | .ok _ => true
  | .error _ => false

/-- The iteration order (`__iter__` iterates the backing dict). -/
def ciodKeys {α : Type} (m : CIOD α) : List Str := dictKeys m.dict

/-- `OrderedDict(pairs)`: assignment in order (a repeated key keeps its
first position and takes the later value). -/
def odFromPairs {α : Type} (ps : List (Str × α)) : List (Str × α) :=
  ps.foldl (fun d p => dictSet d p.1 p.2) []

/-- `CaseInsensitiveOrderedDict(pairs)`: build the backing OrderedDict,
derive the case mapping (`{key.lower(): key for key in self._dict}`,
later keys winning on collision) and fail with the duplicate-key error
when the mapping is smaller than the dict. -/
def ciodInit {α : Type} (ps : List (Str × α)) : Except PyErr (CIOD α) :=
  let d := odFromPairs ps
  let cm := (dictKeys d).foldl (fun m k => dictSet m (pyLower k) k) []
  if cm.length ≠ d.length then .error dupKeyErr
  else .ok ⟨d, cm⟩

theorem dictGet_set_self {α : Type} :
    ∀ (d : List (Str × α)) (k : Str) (v : α), dictGet (dictSet d k v) k = some v := by
  intro d
  induction d with
  | nil => intro k v; simp [dictGet, dictSet]
  | cons kv rest ih =>
    intro k v
    by_cases hk : (kv.1 == k) = true
    · simp [dictGet, dictSet, hk]
    · simp only [dictSet, hk, Bool.false_eq_true, if_false, dictGet]
      exact ih k v

theorem dictKeys_set_of_get_some {α : Type} :
    ∀ (d : List (Str × α)) (k : Str) (v w : α),
      dictGet d k = some w → dictKeys (dictSet d k v) = dictKeys d := by
  intro d
  induction d with
  | nil => intro k v w h; simp [dictGet] at h
  | cons kv rest ih =>
    intro k v w h
    by_cases hk : (kv.1 == k) = true
    · have : kv.1 = k := by simpa using hk
      simp [dictSet, hk, dictKeys, this]
    · simp only [dictGet, hk, Bool.false_eq_true, if_false] at h
      simp only [dictSet, hk, Bool.false_eq_true, if_false, dictKeys, List.map_cons]
      have := ih k v w h
      simp only [dictKeys] at this
      rw [this]

theorem dictKeys_set_of_get_none {α : Type} :
    ∀ (d : List (Str × α)) (k : Str) (v : α),
      dictGet d k = Option.none → dictKeys (dictSet d k v) = dictKeys d ++ [k] := by
  intro d
  induction d with
  | nil => intro k v _; simp [dictSet, dictKeys]
  | cons kv rest ih =>
    intro k v h
    by_cases hk : (kv.1 == k) = true
    · simp [dictGet, hk] at h
    · simp only [dictGet, hk, Bool.false_eq_true, if_false] at h
      simp only [dictSet, hk, Bool.false_eq_true, if_false, dictKeys, List.map_cons,
        List.cons_append, List.cons.injEq, true_and]
      have := ih k v h
      simpa [dictKeys] using this

theorem ciodSet_get_ci {α : Type} (m : CIOD α) (k1 k2 : Str) (v : α)
    (hlow : pyLower k1 = pyLower k2) : ciodGet (ciodSet m k1 v) k2 = .ok v := by
  simp only [ciodSet, ciodGet, ← hlow]
  cases hm : dictGet m.case_mapping (pyLower k1) with
  | none =>
    rw [dictGet_set_self m.case_mapping (pyLower k1) k1]
    simp only [Option.getD_some]
    rw [dictGet_set_self]
  | some o =>
    rw [hm]
    simp only [Option.getD_some]
    rw [dictGet_set_self]

/-- After a `ciodSet`, the recorded original casing for the key's
lowercase is present in the mapping and its dict entry exists. -/
theorem ciodSet_mapping_entry {α : Type} (m : CIOD α) (k : Str) (v : α) :
    ∃ o, dictGet (ciodSet m k v).case_mapping (pyLower k) = some o ∧
      dictGet (ciodSet m k v).dict o = some v := by
  simp only [ciodSet]
  cases hm : dictGet m.case_mapping (pyLower k) with
  | none =>
    refine ⟨k, ?_, ?_⟩
    · rw [dictGet_set_self]
    · rw [dictGet_set_self m.case_mapping (pyLower k) k]
      simp only [Option.getD_some]
      rw [dictGet_set_self]
  | some o =>
    refine ⟨o, hm, ?_⟩
    rw [hm]
    simp only [Option.getD_some]
    rw [dictGet_set_self]

theorem ciodSet_keys_ci {α : Type} (m : CIOD α) (k1 k2 : Str) (v1 v2 : α)
    (hlow : pyLower k1 = pyLower k2) :
    ciodKeys (ciodSet (ciodSet m k1 v1) k2 v2) = ciodKeys (ciodSet m k1 v1) := by
  obtain ⟨o, ho, hd⟩ := ciodSet_mapping_entry m k1 v1
  set m1 := ciodSet m k1 v1 with hm1
  have hcm2 : dictGet m1.case_mapping (pyLower k2) = some o := by
    rw [← hlow]
    exact ho
  simp only [ciodKeys, ciodSet, hcm2, Option.getD_some]
  exact dictKeys_set_of_get_some _ _ _ _ hd

theorem ciodSet_keys_fresh {α : Type} (m : CIOD α) (k : Str) (v : α)
    (hcm : dictGet m.case_mapping (pyLower k) = Option.none)
    (hd : dictGet m.dict k = Option.none) :
    ciodKeys (ciodSet m k v) = ciodKeys m ++ [k] := by
  simp only [ciodKeys, ciodSet, hcm]
  rw [dictGet_set_self m.case_mapping (pyLower k) k]
  simp only [Option.getD_some]
  exact dictKeys_set_of_get_none _ _ _ hd

/-- C9, amended.  For keys equal up to case, `set` then `get` returns the
set value; re-inserting under a different casing updates the value while
iteration keeps reporting the key order and casing of the first insertion;
a case-insensitively fresh key is appended under its given casing; and
batch construction fails with the duplicate-key error when two *distinct*
input keys are case-insensitively equal.  (Two *identical* input keys are
collapsed by the backing OrderedDict before the check, see
`C9_counterexample`.) -/
theorem C9_ciod_behaviour :
    (∀ (α : Type) (m : CIOD α) (k1 k2 : Str) (v : α), pyLower k1 = pyLower k2 →
        ciodGet (ciodSet m k1 v) k2 = .ok v) ∧
    (∀ (α : Type) (m : CIOD α) (k1 k2 : Str) (v1 v2 : α), pyLower k1 = pyLower k2 →
        ciodKeys (ciodSet (ciodSet m k1 v1) k2 v2) = ciodKeys (ciodSet m k1 v1) ∧
        ciodGet (ciodSet (ciodSet m k1 v1) k2 v2) k1 = .ok v2) ∧
    (∀ (α : Type) (m : CIOD α) (k : Str) (v : α),
        dictGet m.case_mapping (pyLower k) = Option.none →
        dictGet m.dict k = Option.none →
        ciodKeys (ciodSet m k v) = ciodKeys m ++ [k]) ∧
    (∀ (α : Type) (k1 k2 : Str) (v1 v2 : α), k1 ≠ k2 → pyLower k1 = pyLower k2 →
        ciodInit [(k1, v1), (k2, v2)] = .error dupKeyErr) := by
  refine ⟨fun α m k1 k2 v h => ciodSet_get_ci m k1 k2 v h,
    fun α m k1 k2 v1 v2 h => ⟨ciodSet_keys_ci m k1 k2 v1 v2 h, ?_⟩,
    fun α m k v hcm hd => ciodSet_keys_fresh m k v hcm hd, ?_⟩
  · exact ciodSet_get_ci (ciodSet m k1 v1) k2 k1 v2 h.symm
  · intro α k1 k2 v1 v2 hne hlow
    have h1 : (k1 == k2) = false := by
      simp [hne]
    have h2 : (pyLower k1 == pyLower k2) = true := by
      simp [hlow]
    simp only [ciodInit, odFromPairs, List.foldl, dictSet, dictKeys, List.map]
    simp only [h1, Bool.false_eq_true, if_false, List.map, List.foldl, dictSet, h2, if_true]
    simp

/-- Witness for `C9_ciod_behaviour` at concrete keys and values. -/
theorem C9_ciod_behaviour_witness :
    ciodGet (ciodSet (⟨[], []⟩ : CIOD Nat) (pyStr "Key") 5) (pyStr "kEY") = .ok 5 ∧
    ciodInit [(pyStr "A", (1 : Nat)), (pyStr "a", 2)] = .error dupKeyErr :=
  ⟨C9_ciod_behaviour.1 Nat ⟨[], []⟩ (pyStr "Key") (pyStr "kEY") 5 (by decide),
    C9_ciod_behaviour.2.2.2 Nat (pyStr "A") (pyStr "a") 1 2 (by decide) (by decide)⟩

/-- C9, counterexample.  A batch whose two pairs carry the *same* key
`"A"` twice — two case-insensitively equal input keys — does not fail:
the backing OrderedDict collapses them (last value, first position) before
the size check, so construction succeeds, contrary to the claim that any
batch containing two case-insensitively equal keys fails. -/
theorem C9_counterexample :
    ciodInit [(pyStr "A", (1 : Nat)), (pyStr "A", 2)]
      = .ok ⟨[(pyStr "A", 2)], [(pyStr "a", pyStr "A")]⟩ := by
  decide

/-! ### Theorems for the record-parse arity claim (C5) -/

theorem pySplitChAux_length_le (sep : Char) :
    ∀ (s acc : Str) (m : Int), 0 ≤ m → (pySplitChAux sep m acc s).length ≤ m.toNat + 1 := by
  intro s
  induction s with
  | nil => intro acc m _; simp [pySplitChAux]
  | cons c cs ih =>
    intro acc m hm
    by_cases hc : (c == sep && m != 0) = true
    · have hm0 : m ≠ 0 := by
        have h2 := ((Bool.and_eq_true _ _).mp hc).2
        simpa using h2
      simp only [pySplitChAux, hc, if_true, List.length_cons]
      have h3 := ih [] (m - 1) (by omega)
      have h4 : (m - 1).toNat + 1 = m.toNat := by omega
      omega
    · simp only [pySplitChAux, hc, Bool.false_eq_true, if_false]
      exact ih _ _ hm

theorem pyInt_error {s : Str} {e : PyErr} (h : pyInt s = .error e) : e = intErr := by
  simp only [pyInt] at h
  split at h
  · simp at h
  · injection h with h2
    exact h2.symm

theorem pyIntHex_error {s : Str} {e : PyErr} (h : pyIntHex s = .error e) : e = hexErr := by
  simp only [pyIntHex] at h
  split at h
  · simp at h
  · injection h with h2
    exact h2.symm

theorem pyFloat_error {s : Str} {e : PyErr} (h : pyFloat s = .error e) : e = floatErr := by
  simp only [pyFloat] at h
  split at h
  · simp at h
  · injection h with h2
    exact h2.symm

theorem timedelta_from_ass_error {v : Str} {e : PyErr}
    (h : timedelta_from_ass v = .error e) : e = unpackErr ∨ e = intErr := by
  simp only [timedelta_from_ass] at h
  split at h
  · split at h
    · rename_i heq
      injection h with h2
      exact Or.inr (h2 ▸ pyInt_error heq)
    · split at h
      · rename_i heq
        injection h with h2
        exact Or.inr (h2 ▸ pyInt_error heq)
      · split at h
        · rename_i heq
          injection h with h2
          exact Or.inr (h2 ▸ pyInt_error heq)
        · split at h
          · rename_i heq
            injection h with h2
            exact Or.inr (h2 ▸ pyInt_error heq)
          · simp at h
  · injection h with h2
    exact Or.inl h2.symm

theorem color_from_ass_error {v : Str} {e : PyErr}
    (h : color_from_ass v = .error e) : e = colorErr ∨ e = hexErr := by
  simp only [color_from_ass] at h
  split at h
  · injection h with h2
    exact Or.inl h2.symm
  · split at h
    · rename_i heq
      injection h with h2
      refine Or.inr ?_
      rw [← h2]
      exact pyIntHex_error heq
    · simp at h

theorem fieldParse_ne_arityErr {t : FieldType} {v : Str} {e : PyErr}
    (h : fieldParse t v = .error e) : e ≠ arityErr := by
  cases t with
  | str => simp [fieldParse] at h
  | int =>
    cases hp : pyInt v with
    | ok n => simp [fieldParse, hp, Except.map] at h
    | error e2 =>
      simp only [fieldParse, hp, Except.map] at h
      injection h with h2
      rw [← h2, pyInt_error hp]
      decide
  | bool =>
    cases hp : pyInt v with
    | ok n => simp [fieldParse, hp, Except.map] at h
    | error e2 =>
      simp only [fieldParse, hp, Except.map] at h
      injection h with h2
      rw [← h2, pyInt_error hp]
      decide
  | float =>
    cases hp : pyFloat v with
    | ok q => simp [fieldParse, hp, Except.map] at h
    | error e2 =>
      simp only [fieldParse, hp, Except.map] at h
      injection h with h2
      rw [← h2, pyFloat_error hp]
      decide
  | td =>
    have := timedelta_from_ass_error (v := v) (e := e) h
    rcases this with h2 | h2 <;> rw [h2] <;> decide
  | color =>
    have := color_from_ass_error (v := v) (e := e) h
    rcases this with h2 | h2 <;> rw [h2] <;> decide

theorem lineFieldsAux_ne_arityErr (cls : LineClass) :
    ∀ (l : List (Str × Str)) (acc : List (Str × PyVal)) (e : PyErr),
      lineFieldsAux cls l acc = .error e → e ≠ arityErr := by
  intro l
  induction l with
  | nil => intro acc e h; simp [lineFieldsAux] at h
  | cons p rest ih =>
    intro acc e h
    obtain ⟨name, part⟩ := p
    simp only [lineFieldsAux] at h
    split at h
    · split at h
      · rename_i heq
        injection h with h2
        exact h2 ▸ fieldParse_ne_arityErr heq
      · exact ih _ _ h
    · exact ih _ _ h

/-- C5.  Against a non-empty field order of N names, `_Line.parse` splits
its text on commas with at most N-1 cuts (so the last field keeps embedded
commas verbatim) and fails with the arity-mismatch error exactly when the
split yields fewer than N parts; concretely, `"a,b"` against a 3-name
order fails with that error, and `"a,b,c,d"` against a 3-name order
succeeds with the third field holding `"c,d"` verbatim. -/
theorem C5_record_parse_arity :
    (∀ (cls : LineClass) (tn line : Str) (fo : List Str), fo ≠ [] →
        (lineParse cls tn line (some fo) = .error arityErr ↔
          (pySplitCh ',' line ((fo.length : Int) - 1)).length < fo.length)) ∧
    lineParse UnknownC (pyStr "X") (pyStr "a,b")
        (some [pyStr "A", pyStr "B", pyStr "C"]) = .error arityErr ∧
    ∃ r, lineParse UnknownC (pyStr "X") (pyStr "a,b,c,d")
          (some [pyStr "A", pyStr "B", pyStr "C"]) = .ok r ∧
        dictGet r.fields (pyStr "C") = some (.str (pyStr "c,d")) := by
  refine ⟨?_, by decide, ?_⟩
  · intro cls tn line fo hfo
    have hpos : 1 ≤ fo.length := List.length_pos.mpr hfo
    have hle : (pySplitCh ',' line ((fo.length : Int) - 1)).length ≤ fo.length := by
      have h1 := pySplitChAux_length_le ',' line [] ((fo.length : Int) - 1) (by omega)
      simp only [pySplitCh]
      omega
    simp only [lineParse, Option.getD]
    by_cases hlen :
        (pySplitCh ',' line ((fo.length : Int) - 1)).length = fo.length
    · rw [if_neg (by omega)]
      constructor
      · intro h
        exfalso
        cases hf : lineFieldsAux cls
            (fo.zip (pySplitCh ',' line ((fo.length : Int) - 1))) [] with
        | error e =>
          rw [hf] at h
          injection h with h2
          exact lineFieldsAux_ne_arityErr cls _ _ _ hf h2
        | ok kw =>
          rw [hf] at h
          simp at h
      · intro h
        omega
    · rw [if_pos hlen]
      constructor
      · intro _
        omega
      · intro _
        rfl
  · refine ⟨_, rfl, ?_⟩
    decide

/-- Witness for `C5_record_parse_arity` at the concrete 3-name order. -/
theorem C5_record_parse_arity_witness :
    lineParse UnknownC (pyStr "X") (pyStr "a,b")
        (some [pyStr "A", pyStr "B", pyStr "C"]) = .error arityErr :=
  (C5_record_parse_arity.1 UnknownC (pyStr "X") (pyStr "a,b")
      [pyStr "A", pyStr "B", pyStr "C"] (by decide)).mpr (by decide)

/-! ### Sections and the document (`LineSection`, `FieldSection`,
`Document.parse_file`, `Document.dump_file`) -/

/-- The data of a `LineSection` instance: `self.section`, the class-level
`line_parsers` table (keys lowercased, as written in the source) and
`field_order`, and the parsed `_lines`.  The class attribute `field_order`
becomes this instance field's initial value; a `Format` line shadows it,
exactly as instance attribute assignment does. -/
structure LineSectionData where
  sectionName : Str
  line_parsers : Option (List (Str × LineClass))
  field_order : Option (List Str)
  lines : List Record
  deriving DecidableEq, Repr

/-- The data of a `FieldSection` instance: `self.section`, the class-level
`FIELDS` table, and the ordered `_fields` dict. -/
structure FieldSectionData where
  sectionName : Str
  FIELDS : List (Str × FieldDef)
  fields : List (Str × PyVal)
  deriving DecidableEq, Repr

/-- A section instance of either shape. -/
inductive PySection where
  | line (d : LineSectionData)
  | field (d : FieldSectionData)
  deriving DecidableEq, Repr

/-- A plain `LineSection(name)`: no recognized kinds, no field order. -/
def mkGenericLine (name : Str) : PySection :=
  .line ⟨name, Option.none, Option.none, []⟩

/-- `EventsSection.line_parsers`. -/
def eventLineParsers : List (Str × LineClass) :=
  [(pyStr "dialogue", DialogueC), (pyStr "comment", CommentC),
   (pyStr "picture", PictureC), (pyStr "sound", SoundC),
   (pyStr "movie", MovieC), (pyStr "command", CommandC)]

/-- An `EventsSection(name)`: event kinds, `Dialogue.DEFAULT_FIELD_ORDER`. -/
def mkEvents (name : Str) : PySection :=
  .line ⟨name, some eventLineParsers, some DialogueC.names, []⟩

/-- A `StylesSection(name)`: the `style` kind, `Style.DEFAULT_FIELD_ORDER`. -/
def mkStyles (name : Str) : PySection :=
  .line ⟨name, some [(pyStr "style", StyleC)], some StyleC.names, []⟩

/-- `ScriptInfoSection.FIELDS`. -/
def scriptInfoFIELDS : List (Str × FieldDef) :=
  [(pyStr "ScriptType", ⟨pyStr "ScriptType", .str, .str (pyStr "v4.00+")⟩),
   (pyStr "PlayResX", ⟨pyStr "PlayResX", .int, .int 640⟩),
   (pyStr "PlayResY", ⟨pyStr "PlayResY", .int, .int 480⟩),
   (pyStr "WrapStyle", ⟨pyStr "WrapStyle", .int, .int 0⟩),
   (pyStr "ScaledBorderAndShadow", ⟨pyStr "ScaledBorderAndShadow", .str, .str (pyStr "yes")⟩)]

/-- A `ScriptInfoSection(name)`. -/
def mkScriptInfo (name : Str) : PySection :=
  .field ⟨name, scriptInfoFIELDS, []⟩

/-- `doc.SECTIONS.get(section_name, LineSection)(section_name)`: the
case-insensitive registry maps the four well-known headers to their
section classes and anything else to a plain `LineSection`. -/
def registryMake (name : Str) : PySection :=
  let l := pyLower name
  if l == pyStr "script info" then mkScriptInfo name
  else if l == pyStr "v4 styles" then mkStyles name
  else if l == pyStr "v4+ styles" then mkStyles name
  else if l == pyStr "events" then mkEvents name
  else mkGenericLine name

/-- `LineSection.add_line` / `FieldSection.add_line`.  For a record
section: a (case-insensitive) `Format` kind replaces the field order with
the comma-split, stripped names; otherwise the kind is resolved against
`line_parsers` (failing on an unrecognized kind for a strictly-typed
section, falling back to `Unknown` for a generic one) and the parsed
record is appended.  For a field section: a recognized field name decodes
through its descriptor, any other value is stored as raw text. -/
def sectionAddLine (sec : PySection) (type_name line : Str) : Except PyErr PySection :=
  match sec with
  | .line d =>
    if pyLower type_name == pyStr "format" then
      .ok (.line { d with field_order := some ((pySplitCh ',' line (-1)).map pyStrip) })
    else
      match d.line_parsers with
      | some ps =>
        match dictGet ps (pyLower type_name) with
        | Option.none => .error (unexpectedLineErr type_name d.sectionName)
        | some cls =>
          match lineParse cls type_name line d.field_order with
          | .error e => .error e
          | .ok r => .ok (.line { d with lines := d.lines ++ [r] })
      | Option.none =>
        match lineParse UnknownC type_name line d.field_order with
        | .error e => .error e
        | .ok r => .ok (.line { d with lines := d.lines ++ [r] })
  | .field d =>
    match
      (match dictGet d.FIELDS type_name with
       | some f => fieldParse f.ftype line
       | Option.none => .ok (.str line)) with
    | .error e => .error e
    | .ok v => .ok (.field { d with fields := dictSet d.fields type_name v })

/-- The record loop of `LineSection.dump`: each record's
`dump_with_type(self.field_order)`. -/
def recordsDump (fo : Option (List Str)) : List Record → Except PyErr (List Str)
  | [] => .ok []
  | r :: rest =>
    match lineDumpWithType r fo with
    | .error e => .error e
    | .ok s =>
      match recordsDump fo rest with
      | .error e => .error e
      | .ok tl => .ok (s :: tl)

/-- `LineSection.dump` / `FieldSection.dump`: the `[Header]` line, then —
for a record section with an established field order — the
`Format: name, name, ...` line, then the records (or the `name: value`
pairs of a field section). -/
def sectionDump (sec : PySection) : Except PyErr (List Str) :=
  match sec with
  | .line d =>
    match recordsDump d.field_order d.lines with
    | .error e => .error e
    | .ok recLines =>
      .ok (('[' :: d.sectionName ++ [']']) ::
        ((match d.field_order with
          | some fo => [pyStr "Format" ++ pyStr ": " ++ joinSep (pyStr ", ") fo]
          | Option.none => []) ++ recLines))
  | .field d =>
    .ok (('[' :: d.sectionName ++ [']']) ::
      d.fields.map (fun kv => kv.1 ++ pyStr ": " ++ fieldDump kv.2))

/-- An assembled document.  During `parse_file` the current section, the
pre-created defaults in `doc.sections` and the entries of `seen_sections`
alias the same mutable section objects, so object identity is modelled
with a store of section instances; `sections` maps each header to a store
index. -/
structure PyDocument where
  store : List PySection
  sections : CIOD Nat
  deriving DecidableEq, Repr

/-- The store pre-created by `Document.__init__`: `Script Info`,
`V4+ Styles` and `Events` sections at indices 0, 1 and 2. -/
def defaultStore : List PySection :=
  [mkScriptInfo (pyStr "Script Info"), mkStyles (pyStr "V4+ Styles"),
   mkEvents (pyStr "Events")]

/-- The `doc.sections` map built by `Document.__init__` (a
`CaseInsensitiveOrderedDict` over the three default headers). -/
def defaultSections : CIOD Nat :=
  ⟨[(pyStr "Script Info", 0), (pyStr "V4+ Styles", 1), (pyStr "Events", 2)],
   [(pyStr "script info", pyStr "Script Info"),
    (pyStr "v4+ styles", pyStr "V4+ Styles"),
    (pyStr "events", pyStr "Events")]⟩

/-- The mutable state of the `parse_file` loop: the object store, the
`seen_sections` map, and the current-section cursor. -/
structure ParseState where
  store : List PySection
  seen : CIOD Nat
  current : Option Nat
  deriving DecidableEq, Repr

/-- One iteration of the `parse_file` loop: strip the line, skip blanks
and `;` comments; a `[Name]` line reuses the section object when the name
matches `doc.sections` case-insensitively, else instantiates through the
registry, and records the section in `seen_sections` either way; a content
line requires a current section, is discarded without a colon, and is
otherwise split at the first colon and routed to the section's
`add_line`. -/
def parseLine (st : ParseState) (raw : Str) : Except PyErr ParseState :=
  let line := pyStrip raw
  if line.isEmpty then .ok st
  else if pyStartsWith line (pyStr ";") then .ok st
  else if pyStartsWith line (pyStr "[") && pyEndsWith line (pyStr "]") then
    let name := (line.drop 1).dropLast
    match ciodGet defaultSections name with
    | .ok idx => .ok ⟨st.store, ciodSet st.seen name idx, some idx⟩
    | .error _ =>
      let idx := st.store.length
      .ok ⟨st.store ++ [registryMake name], ciodSet st.seen name idx, some idx⟩
  else
    match st.current with
    | Option.none => .error outsideErr
    | some idx =>
      if ¬ line.contains ':' then .ok st
      else
        let pr := pyPartition ':' line
        match st.store.get? idx with
        | Option.none => .error .keyError
        | some sec =>
          match sectionAddLine sec pr.1 (pyLstrip pr.2) with
          | .error e => .error e
          | .ok sec2 => .ok ⟨st.store.set idx sec2, st.seen, st.current⟩

/-- The `parse_file` loop over the remaining input lines. -/
def parseLinesFrom : ParseState → List Str → Except PyErr ParseState
  | st, [] => .ok st
  | st, l :: rest =>
    match parseLine st l with
    | .error e => .error e
    | .ok st2 => parseLinesFrom st2 rest

/-- The three byte-order-mark prefixes rejected on the first line. -/
def bomPrefixes : List Str :=
  [[Char.ofNat 0xEF, Char.ofNat 0xBB, Char.ofNat 0xBF],
   [Char.ofNat 0xFF, Char.ofNat 0xFE],
   [Char.ofNat 0xFEFF]]

/-- After the loop, any default section never encountered is appended to
`seen_sections` in its default order. -/
def appendDefaults (seen : CIOD Nat) : CIOD Nat :=
  defaultSections.dict.foldl
    (fun s pr => if ciodContains s pr.1 then s else ciodSet s pr.1 pr.2) seen

/-- `Document.parse_file` over a list of input lines (the file iteration
yields lines whose trailing newlines the per-line `strip()` removes, so
lines are modelled without them): reject a BOM on the first line, run the
section-routing loop, then append the never-seen default sections and make
`seen_sections` the document's section map. -/
def parse_file (lines : List Str) : Except PyErr PyDocument :=
  match lines with
  | [] => .ok ⟨defaultStore, appendDefaults ⟨[], []⟩⟩
  | l0 :: _ =>
    if bomPrefixes.any (fun b => pyStartsWith l0 b) then .error bomErr
    else
      match parseLinesFrom ⟨defaultStore, ⟨[], []⟩, Option.none⟩ lines with
      | .error e => .error e
      | .ok st => .ok ⟨st.store, appendDefaults st.seen⟩

/-- The section loop of `Document.dump_file`: each section's `dump()`
lines followed by the blank line that the `write("\n\n")` terminator
produces. -/
def dumpSectionsFrom (doc : PyDocument) : List (Str × Nat) → Except PyErr (List Str)
  | [] => .ok []
  | pr :: rest =>
    match doc.store.get? pr.2 with
    | Option.none => .error .keyError
    | some sec =>
      match sectionDump sec with
      | .error e => .error e
      | .ok ls =>
        match dumpSectionsFrom doc rest with
        | .error e => .error e
        | .ok tl => .ok (ls ++ [[]] ++ tl)

/-- `Document.dump_file`, producing the emitted text as a list of lines. -/
def dump_lines (doc : PyDocument) : Except PyErr (List Str) :=
  dumpSectionsFrom doc doc.sections.dict

/-- The sections of a document in order, with each header's section
instance resolved through the store. -/
def docItems (doc : PyDocument) : List (Str × Option PySection) :=
  doc.sections.dict.map (fun pr => (pr.1, doc.store.get? pr.2))

/-! ### Theorems for the document claims (C1, C10) -/

/-- The `Start` field of the first record of the `Events` section of a
parse result. -/
def firstEventStart (r : Except PyErr PyDocument) : Option PyVal :=
  match r with
  | .error _ => Option.none
  | .ok doc =>
    match ciodGet doc.sections (pyStr "Events") with
    | .error _ => Option.none
    | .ok idx =>
      match doc.store.get? idx with
      | some (.line d) =>
        match d.lines with
        | r0 :: _ => dictGet r0.fields (pyStr "Start")
        | [] => Option.none
      | _ => Option.none

/-- Dump a parsed document and parse the dump again. -/
def reparse (r : Except PyErr PyDocument) : Except PyErr PyDocument :=
  match r with
  | .error e => .error e
  | .ok doc =>
    match dump_lines doc with
    | .error e => .error e
    | .ok d1 => parse_file d1

/-- The C1 failing input: an events section whose dialogue starts at the
negative time `-1:59:59.50`, i.e. −0.5 seconds. -/
def c1Input : List Str :=
  [pyStr "[Events]",
   pyStr "Dialogue: 0,-1:59:59.50,0:00:00.00,Default,,0,0,0,,x"]

/-- C1, divergence witness.  The document parsed from `c1Input` holds a
start time of −0.5 s (−500000 µs), but `timedelta_to_ass` dumps that
value as `"0:00:00.50"`, so parsing the dump yields +0.5 s: the re-parsed
document does not have the same field values as the original, contrary to
the round-trip claim. -/
theorem C1_roundtrip_value_bug :
    firstEventStart (parse_file c1Input) = some (.td (-500000)) ∧
    firstEventStart (reparse (parse_file c1Input)) = some (.td 500000) := by
  constructor
  · decide
  · decide

/-- The C10 input with a non-default header repeated in different casing. -/
def c10InputA : List Str :=
  [pyStr "[Foo]", pyStr "X: a", pyStr "[FOO]", pyStr "Y: b"]

/-- The C10 input with a default header repeated in different casing. -/
def c10InputB : List Str :=
  [pyStr "[Events]",
   pyStr "Dialogue: 0,0:00:00.00,0:00:00.00,Default,,0,0,0,,a",
   pyStr "[EVENTS]",
   pyStr "Dialogue: 0,0:00:00.00,0:00:00.00,Default,,0,0,0,,b"]

/-- The `Unknown` record produced for kind `tn` with value `v`. -/
def unknownRec (tn v : Str) : Record :=
  ⟨some tn, [(pyStr "Value", .str v)], [pyStr "Value"]⟩

/-- The `Dialogue` record with default fields and text `t`. -/
def diaRec (t : Str) : Record :=
  ⟨some (pyStr "Dialogue"),
   [(pyStr "Layer", .int 0), (pyStr "Start", .td 0), (pyStr "End", .td 0),
    (pyStr "Style", .str (pyStr "Default")), (pyStr "Name", .str []),
    (pyStr "MarginL", .int 0), (pyStr "MarginR", .int 0), (pyStr "MarginV", .int 0),
    (pyStr "Effect", .str []), (pyStr "Text", .str t)],
   DialogueC.names⟩

/-- C10.  Parsing `[Foo] / X: a / [FOO] / Y: b`: the second occurrence of
the (non-default) header creates a fresh generic section object which
replaces the first at its position under the first casing, so the record
parsed from `X: a` is lost and the resulting `Foo` entry holds only the
`Y` record (its section object carrying the second occurrence's casing
`FOO`); the never-seen default sections follow.  Parsing
`[Events] / Dialogue: ...a / [EVENTS] / Dialogue: ...b`: both header
occurrences resolve to the pre-created `Events` section object, so the two
dialogue records accumulate in that one section at its first-encounter
position. -/
theorem C10_duplicate_section_headers :
    (parse_file c10InputA).map docItems = .ok
      [(pyStr "Foo",
        some (.line ⟨pyStr "FOO", Option.none, Option.none,
          [unknownRec (pyStr "Y") (pyStr "b")]⟩)),
       (pyStr "Script Info", some (mkScriptInfo (pyStr "Script Info"))),
       (pyStr "V4+ Styles", some (mkStyles (pyStr "V4+ Styles"))),
       (pyStr "Events", some (mkEvents (pyStr "Events")))] ∧
    (parse_file c10InputB).map docItems = .ok
      [(pyStr "Events",
        some (.line ⟨pyStr "Events", some eventLineParsers, some DialogueC.names,
          [diaRec (pyStr "a"), diaRec (pyStr "b")]⟩)),
       (pyStr "Script Info", some (mkScriptInfo (pyStr "Script Info"))),
       (pyStr "V4+ Styles", some (mkStyles (pyStr "V4+ Styles")))] := by
  constructor
  · decide
  · decide

end Ass
